import Mathlib

/-!
# CNC1ToolCrib — verification of the inventory/ledger core

Shallow embedding of the inventory application in `src/app.py`:
the `inventory` and `transactions` tables, the add-item form with its
location validation, the check-out/check-in submit handler, the admin
"Toggle 0 to 1" handler, the inventory search query and the transactions
query. Strings are modelled over their ASCII content (the application's
location codes, action names and timestamps are ASCII).
-/

/-- A row of the `inventory` table
(`inventory(location TEXT, item TEXT, notes TEXT, quantity INTEGER)`),
together with its SQLite `rowid`. -/
structure Item where
  rowid : Nat
  location : String
  item : String
  notes : String
  quantity : Int
deriving Repr, DecidableEq

/-- A row of the `transactions` table
(`transactions(item TEXT, action TEXT, user TEXT, timestamp TEXT, qty INTEGER)`). -/
structure Txn where
  item : String
  action : String
  user : String
  timestamp : String
  qty : Int
deriving Repr, DecidableEq

/-- The persisted state: the inventory table and the append-only
transactions table (in insertion order). -/
structure DB where
  inventory : List Item
  transactions : List Txn
deriving Repr, DecidableEq

/-- Python whitespace stripped by `str.strip()` (ASCII part). -/
def isSpaceChar (c : Char) : Bool :=
  c == ' ' || c == '\t' || c == '\n' || c == '\r' || c == '\x0b' || c == '\x0c'

/-- `str.strip()`: remove leading and trailing whitespace. -/
def pyStrip (s : String) : String :=
  String.mk (((s.data.dropWhile isSpaceChar).reverse.dropWhile isSpaceChar).reverse)

/-- `str.upper()` on ASCII content. -/
def pyUpper (s : String) : String :=
  String.mk (s.data.map Char.toUpper)

/-- Is `c` kept by `re.sub(r'[^0-9A-Z]', '', ·)`? -/
def isLocChar (c : Char) : Bool :=
  c.isDigit || (c.isUpper)

/-- `re.sub(r'[^0-9A-Z]', '', s)` — drop every character outside `[0-9A-Z]`
(app.py line 207). -/
def stripNonLocChars (s : String) : String :=
  String.mk (s.data.filter isLocChar)

/-- The cleaning pipeline applied to the raw location input:
`.strip().upper()` (line 201) followed by the `re.sub` (line 207). -/
def cleanLoc (raw : String) : String :=
  stripNonLocChars (pyUpper (pyStrip raw))

/-- `re.match(r'^\d{1,3}[A-Z]$', s)` (app.py line 208): 1–3 digits followed
by exactly one uppercase letter. -/
def matchesLocPattern (s : String) : Bool :=
  let cs := s.data
  decide (2 ≤ cs.length) && decide (cs.length ≤ 4) &&
    cs.dropLast.all Char.isDigit &&
    (match cs.getLast? with
     | some c => c.isUpper
     | none => false)

/-- The location-normalization behaviour of the add-item form: clean the raw
input, accept exactly when the cleaned string matches the pattern. -/
def normalizeLoc (raw : String) : Option String :=
  let cleaned := cleanLoc raw
  if matchesLocPattern cleaned then some cleaned else none

/-- `extract_cabinet` (app.py lines 177–179): the first match of
`re.search(r'\d{1,3}', loc)` — up to three digits starting at the first
digit of `loc`. -/
def extract_cabinet (loc : String) : Option String :=
  let rest := loc.data.dropWhile (fun c => !c.isDigit)
  if rest.isEmpty then none
  else some (String.mk ((rest.takeWhile Char.isDigit).take 3))

/-- Scanner for `re.search(r'(?<=\d)[A-Za-z]', loc)`: walk the characters
keeping the previous one, and fire at the first letter preceded by a digit. -/
def drawerScan : Char → List Char → Option Char
  | _, [] => none
  | prev, c :: cs =>
    if prev.isDigit && c.isAlpha then some c.toUpper else drawerScan c cs

/-- `extract_drawer` (app.py lines 181–183): the first letter preceded by a
digit, uppercased. -/
def extract_drawer (loc : String) : Option Char :=
  match loc.data with
  | [] => none
  | c :: cs => drawerScan c cs

/-- `INSERT INTO transactions ... VALUES (...)` (app.py line 352): append a
row to the ledger. -/
def insertTransaction (db : DB) (tx : Txn) : DB :=
  { db with transactions := db.transactions ++ [tx] }

/-- `UPDATE inventory SET quantity=? WHERE rowid=?` (app.py line 355). -/
def updateQuantity (db : DB) (rid : Nat) (q : Int) : DB :=
  { db with inventory :=
      db.inventory.map (fun it => if it.rowid = rid then { it with quantity := q } else it) }

/-- The Submit handler of the inventory tab (app.py lines 350–356): guarded
by `act != "None" and usr.strip()`; on success it first inserts a ledger row
carrying the displayed (pre-mutation) item name and the requested quantity,
then updates the stored quantity to `max(0, current ∓ requested)`. -/
def submit (db : DB) (r : Item) (act usr ts : String) (q_val : Int) : DB :=
  if act ≠ "None" ∧ pyStrip usr ≠ "" then
    let newQty : Int := if act = "Check Out" then r.quantity - q_val else r.quantity + q_val
    updateQuantity
      (insertTransaction db ⟨r.item, act, pyStrip usr, ts, q_val⟩)
      r.rowid (max 0 newQty)
  else db

/-- The add-item form submit handler (app.py lines 199–218).  The raw
location is `.strip().upper()`-ed at line 201; the guard at line 206 requires
a non-empty item name and non-empty (cleaned-up) location; then the location
is validated and, on success, one inventory row is inserted.  The second
component is the error message shown by `st.error`, if any. -/
def addForm (db : DB) (newRowid : Nat) (new_item raw_loc : String)
    (new_qty : Int) (new_notes : String) : DB × Option String :=
  let new_loc := pyUpper (pyStrip raw_loc)
  if new_item ≠ "" ∧ new_loc ≠ "" then
    let clean_loc := stripNonLocChars new_loc
    if matchesLocPattern clean_loc then
      ({ db with inventory :=
          db.inventory ++ [⟨newRowid, clean_loc, pyStrip new_item, pyStrip new_notes, new_qty⟩] },
       none)
    else
      (db, some "Location must be like 5A, 12B, or 105C")
  else (db, none)

/-- The location filter shared by the admin toggle (app.py lines 276–283) and
the inventory search (lines 321–326): both selected → `location = cab||drw`
(exact equality); cabinet only → `location LIKE 'cab%'`; drawer only →
`location LIKE '%drw'`.  SQLite `LIKE` is case-insensitive on ASCII, `=` is
not. -/
def locationFilter (cab drw : String) (r : Item) : Bool :=
  if cab ≠ "All" ∧ drw ≠ "All" then r.location == cab ++ drw
  else if cab ≠ "All" then
    (pyUpper cab).data.isPrefixOf (pyUpper r.location).data
  else if drw ≠ "All" then
    (pyUpper drw).data.isSuffixOf (pyUpper r.location).data
  else true

/-- The admin "Toggle 0 to 1" handler (app.py lines 275–293): every matched
row gets `quantity = 1 if quantity == 0 else 0`; nothing else is touched. -/
def toggle01 (db : DB) (cab drw : String) : DB :=
  { db with inventory :=
      db.inventory.map (fun r =>
        if locationFilter cab drw r then
          { r with quantity := if r.quantity = 0 then 1 else 0 }
        else r) }

/-- SQLite `LIKE` pattern matching: `%` matches any (possibly empty)
sequence, `_` matches exactly one character, every other pattern character
matches itself.  `LIKE` is case-insensitive on ASCII, which callers model by
uppercasing both sides before the call.  The user-typed name is spliced into
the pattern unescaped (`f"%{name}%"`, app.py line 320), so `%` and `_` typed
by the user keep their wildcard meaning. -/
def likeMatch : List Char → List Char → Bool
  | [], s => s.isEmpty
  | '%' :: ps, s => s.tails.any (fun t => likeMatch ps t)
  | '_' :: ps, s =>
    match s with
    | [] => false
    | _ :: s2 => likeMatch ps s2
  | pc :: ps, s =>
    match s with
    | [] => false
    | c :: s2 => pc == c && likeMatch ps s2

/-- The WHERE clause of the inventory search (app.py lines 318–327):
name given → `item LIKE '%' || name || '%'` (case-insensitive, with `%` and
`_` in the user-typed name interpreted as `LIKE` wildcards); the location
filter of `locationFilter`; `qty > 0` → `quantity = qty`. -/
def searchMatches (name cab drw : String) (qty : Int) (r : Item) : Bool :=
  (name == "" ||
      likeMatch ('%' :: (pyUpper name).data ++ ['%']) (pyUpper r.item).data) &&
    locationFilter cab drw r &&
    (decide (qty ≤ 0) || r.quantity == qty)

/-- Ordering `ORDER BY location, item` (app.py line 328): lexicographic on
the pair (location, item name). -/
def invOrder (a b : Item) : Prop :=
  toLex (a.location, a.item) ≤ toLex (b.location, b.item)

instance : DecidableRel invOrder :=
  fun a b => inferInstanceAs (Decidable (toLex (a.location, a.item) ≤ toLex (b.location, b.item)))

instance : IsTotal Item invOrder := ⟨fun x y => le_total (toLex (x.location, x.item)) (toLex (y.location, y.item))⟩

instance : IsTrans Item invOrder := ⟨fun _ _ _ => le_trans⟩

/-- The inventory search query (app.py lines 318–330): the rows matching the
WHERE clause, ordered by (location, item). -/
def searchInventory (rows : List Item) (name cab drw : String) (qty : Int) : List Item :=
  List.insertionSort invOrder (rows.filter (searchMatches name cab drw qty))

/-- Ordering `ORDER BY timestamp DESC` (app.py line 366): newest first. -/
def newerFirst (a b : Txn) : Prop :=
  b.timestamp ≤ a.timestamp

instance : DecidableRel newerFirst :=
  fun a b => inferInstanceAs (Decidable (b.timestamp ≤ a.timestamp))

instance : IsTotal Txn newerFirst := ⟨fun x y => (le_total x.timestamp y.timestamp).symm⟩

instance : IsTrans Txn newerFirst := ⟨fun _ _ _ h1 h2 => le_trans h2 h1⟩

/-- The transactions-tab query (app.py line 366):
`SELECT * FROM transactions ORDER BY timestamp DESC LIMIT 100`. -/
def queryTransactions (txs : List Txn) : List Txn :=
  (List.insertionSort newerFirst txs).take 100

/-- Modelled from the spec: no Delete handler exists in `src/` (only the
check-out/check-in workflow is present); §4.4 of the spec describes it.
Given an Item id and a user non-blank after trimming (§4.4 precondition:
blank user is a silent no-op), it (1) appends one ledger row with
action="Deleted" and quantity = the item's quantity at time of deletion and
(2) removes the item from the stock store; an unknown id fails
(`NotFoundError`, §4.2 `remove`). -/
def deleteItem (db : DB) (id : Nat) (usr ts : String) : Except String DB :=
  if pyStrip usr = "" then Except.ok db
  else
    match db.inventory.find? (fun it => it.rowid == id) with
    | none => Except.error "NotFoundError"
    | some it =>
      Except.ok
        { inventory := db.inventory.filter (fun x => x.rowid != id),
          transactions := db.transactions ++ [⟨it.item, "Deleted", pyStrip usr, ts, it.quantity⟩] }

/-! ## Helper lemmas about characters and the location pattern -/

lemma isDigit_isAlpha_false {c : Char} (h : c.isDigit = true) : c.isAlpha = false := by
  simp [Char.isDigit, UInt32.le_def, BitVec.le_def] at h
  simp [Char.isAlpha, Char.isUpper, Char.isLower, UInt32.le_def, BitVec.le_def]
  omega

lemma isUpper_isDigit_false {c : Char} (h : c.isUpper = true) : c.isDigit = false := by
  simp [Char.isUpper, UInt32.le_def, BitVec.le_def] at h
  simp [Char.isDigit, UInt32.le_def, BitVec.le_def]
  omega

lemma isUpper_toUpper_eq {c : Char} (h : c.isUpper = true) : c.toUpper = c := by
  simp [Char.isUpper, UInt32.le_def, BitVec.le_def] at h
  have h2 : ¬ (97 ≤ c.toNat ∧ c.toNat ≤ 122) := by
    simp [Char.toNat, UInt32.toNat]
    omega
  simp [Char.toUpper, h2]

lemma isUpper_isAlpha {c : Char} (h : c.isUpper = true) : c.isAlpha = true := by
  simp [Char.isAlpha, h]

/-- The pattern check `^\d{1,3}[A-Z]$` holds exactly of strings made of one
to three digits followed by a single uppercase letter. -/
lemma matchesLocPattern_iff (s : String) :
    matchesLocPattern s = true ↔
      ∃ ds c, s.data = ds ++ [c] ∧ 1 ≤ ds.length ∧ ds.length ≤ 3 ∧
        (∀ d ∈ ds, d.isDigit = true) ∧ c.isUpper = true := by
  unfold matchesLocPattern
  constructor
  · intro hb
    rcases List.eq_nil_or_concat' s.data with h | ⟨ds, c, h⟩
    · rw [h] at hb
      simp at hb
    · rw [h] at hb
      simp [List.all_eq_true] at hb
      exact ⟨ds, c, h, hb.1.1.1, hb.1.1.2, hb.1.2, hb.2⟩
  · rintro ⟨ds, c, heq, h1, h3, hd, hc⟩
    rw [heq]
    simp [List.all_eq_true, hc]
    exact ⟨⟨by omega, by omega⟩, hd⟩

lemma takeWhile_append_all (p : Char → Bool) :
    ∀ (ds : List Char) (c : Char), (∀ d ∈ ds, p d = true) → p c = false →
      (ds ++ [c]).takeWhile p = ds
  | [], c, _, hc => by simp [List.takeWhile_cons, hc]
  | d :: ds, c, hall, hc => by
    have hd : p d = true := hall d (List.mem_cons_self d ds)
    have hrest := takeWhile_append_all p ds c (fun x hx => hall x (List.mem_cons_of_mem d hx)) hc
    simp [List.takeWhile_cons, hd, hrest]

lemma drawerScan_through_digits :
    ∀ (ds : List Char) (prev c : Char), prev.isDigit = true →
      (∀ d ∈ ds, d.isDigit = true) → c.isAlpha = true →
      drawerScan prev (ds ++ [c]) = some c.toUpper
  | [], prev, c, hp, _, hc => by simp [drawerScan, hp, hc]
  | d :: ds, prev, c, hp, hall, hc => by
    have hd : d.isDigit = true := hall d (List.mem_cons_self d ds)
    have hna : d.isAlpha = false := isDigit_isAlpha_false hd
    have hrest :=
      drawerScan_through_digits ds d c hd (fun x hx => hall x (List.mem_cons_of_mem d hx)) hc
    simp [drawerScan, hna, hrest]

/-! ## Sample data for witnesses -/

/-- The spec §8 scenario item: "Drill Bit 3/8" at 12B with stock 6 after the
first check-out. -/
def sampleItem : Item := ⟨1, "12B", "Drill Bit 3/8", "", 6⟩

def sampleDB : DB := ⟨[sampleItem], []⟩

def toggleDB : DB :=
  ⟨[⟨1, "5A", "endmill", "", 0⟩, ⟨2, "5B", "collet", "", 5⟩],
   [⟨"endmill", "Check In", "u", "ts", 1⟩]⟩

def manyTxs : List Txn := List.replicate 150 ⟨"tap", "Check Out", "u", "2024-01-01 00:00:00", 1⟩

def oddLocItem : Item := ⟨1, "127B", "tap", "", 1⟩


/-! ## Claim theorems -/

-- Scratch examples checking the embedding on concrete inputs.
example : normalizeLoc "5a" = some "5A" := by decide
example : normalizeLoc "12" = none := by decide
example : normalizeLoc "105-C" = some "105C" := by decide
example : normalizeLoc " 12b " = some "12B" := by decide
example : normalizeLoc "1050C" = none := by decide
example : extract_cabinet "105C" = some "105" := by decide
example : extract_drawer "105C" = some 'C' := by decide
example : extract_cabinet "12B" = some "12" := by decide
example : extract_drawer "12b" = some 'B' := by decide
example : searchMatches "drill" "All" "All" 0 sampleItem = true := by decide
example : searchMatches "xyz" "All" "All" 0 sampleItem = false := by decide
-- `_` and `%` typed in the name act as LIKE wildcards, not literals:
example : searchMatches "_" "All" "All" 0 sampleItem = true := by decide
example : searchMatches "a_c" "All" "All" 0 ⟨1, "5A", "abc", "", 1⟩ = true := by decide
example : searchMatches "a_c" "All" "All" 0 ⟨1, "5A", "ac", "", 1⟩ = false := by decide
example : searchMatches "d%t" "All" "All" 0 sampleItem = true := by decide


/-- C1: submitting a Check Out of quantity q ≥ 1 against a row with current
quantity c ≥ 0 stores `max 0 (c - q)` in every row with that rowid: the
result is never negative, the operation is total (the embedding returns a
`DB`, never an error), and when q > c the stored quantity is exactly 0. -/
theorem C1_checkout_clamps (db : DB) (r : Item) (usr ts : String) (q : Int)
    (husr : pyStrip usr ≠ "") (hq : 1 ≤ q) (hc : 0 ≤ r.quantity) :
    ∀ it ∈ (submit db r "Check Out" usr ts q).inventory,
      it.rowid = r.rowid →
        it.quantity = max 0 (r.quantity - q) ∧ 0 ≤ it.quantity ∧
          (r.quantity < q → it.quantity = 0) := by
  unfold submit
  rw [if_pos ⟨by decide, husr⟩]
  intro it hit hrow
  rcases List.mem_map.1 hit with ⟨x, hx, rfl⟩
  by_cases hxr : x.rowid = r.rowid
  · rw [if_pos hxr]
    refine ⟨rfl, le_max_left _ _, fun hlt => ?_⟩
    have : r.quantity - q ≤ 0 := by omega
    simpa using max_eq_left this
  · rw [if_neg hxr] at hrow ⊢
    exact absurd hrow hxr

theorem C1_checkout_clamps_witness :
    pyStrip "Alice" ≠ "" ∧ (1 : Int) ≤ 10 ∧ (0 : Int) ≤ sampleItem.quantity ∧
    ∀ it ∈ (submit sampleDB sampleItem "Check Out" "Alice" "ts" 10).inventory,
      it.rowid = sampleItem.rowid →
        it.quantity = max 0 (sampleItem.quantity - 10) ∧ 0 ≤ it.quantity ∧
          (sampleItem.quantity < 10 → it.quantity = 0) :=
  ⟨by decide, by decide, by decide,
   C1_checkout_clamps sampleDB sampleItem "Alice" "ts" 10 (by decide) (by decide) (by decide)⟩

/-- C2: a successful Check Out / Check In is exactly the composition of the
ledger `INSERT` (recording the pre-mutation item name and the *requested*
quantity) followed by the quantity `UPDATE` — two separate statements — and
the ledger grows by exactly that one row, even when the check-out is
clamped. -/
theorem C2_ledger_records_requested (db : DB) (r : Item) (act usr ts : String) (q : Int)
    (hact : act ≠ "None") (husr : pyStrip usr ≠ "") :
    submit db r act usr ts q =
      updateQuantity (insertTransaction db ⟨r.item, act, pyStrip usr, ts, q⟩) r.rowid
        (max 0 (if act = "Check Out" then r.quantity - q else r.quantity + q)) ∧
    (submit db r act usr ts q).transactions =
      db.transactions ++ [⟨r.item, act, pyStrip usr, ts, q⟩] := by
  unfold submit
  rw [if_pos ⟨hact, husr⟩]
  exact ⟨rfl, rfl⟩

theorem C2_ledger_records_requested_witness :
    ("Check Out" ≠ "None") ∧ pyStrip "Alice" ≠ "" ∧
    ((submit sampleDB sampleItem "Check Out" "Alice" "ts" 10).transactions =
      sampleDB.transactions ++ [⟨sampleItem.item, "Check Out", pyStrip "Alice", "ts", 10⟩]) ∧
    (∀ it ∈ (submit sampleDB sampleItem "Check Out" "Alice" "ts" 10).inventory,
      it.quantity = 0) :=
  ⟨by decide, by decide,
   (C2_ledger_records_requested sampleDB sampleItem "Check Out" "Alice" "ts" 10
      (by decide) (by decide)).2,
   by decide⟩

/-- C3: the add-form location validation uppercases, strips characters
outside [0-9A-Z], and accepts exactly the cleaned strings made of 1–3 digits
followed by one uppercase letter; on success the stored value is the cleaned
string; "5a" ↦ "5A", "12" is rejected, "105-C" ↦ "105C". -/
theorem C3_normalize_location :
    (∀ raw : String,
      (normalizeLoc raw).isSome = true ↔
        ∃ ds c, (cleanLoc raw).data = ds ++ [c] ∧ 1 ≤ ds.length ∧ ds.length ≤ 3 ∧
          (∀ d ∈ ds, d.isDigit = true) ∧ c.isUpper = true) ∧
    (∀ raw : String, normalizeLoc raw = none ∨ normalizeLoc raw = some (cleanLoc raw)) ∧
    normalizeLoc "5a" = some "5A" ∧ normalizeLoc "12" = none ∧
    normalizeLoc "105-C" = some "105C" := by
  refine ⟨fun raw => ?_, fun raw => ?_, by decide, by decide, by decide⟩
  · have h : (normalizeLoc raw).isSome = matchesLocPattern (cleanLoc raw) := by
      unfold normalizeLoc
      by_cases hm : matchesLocPattern (cleanLoc raw) <;> simp [hm]
    rw [h]
    exact matchesLocPattern_iff _
  · unfold normalizeLoc
    by_cases hm : matchesLocPattern (cleanLoc raw) <;> simp [hm]

/-- C5: with the "None" action or a user that is blank after trimming, the
Submit handler leaves the whole database (inventory and ledger) unchanged
and raises no error. -/
theorem C5_submit_guard_noop (db : DB) (r : Item) (act usr ts : String) (q : Int)
    (h : act = "None" ∨ pyStrip usr = "") :
    submit db r act usr ts q = db := by
  have hng : ¬ (act ≠ "None" ∧ pyStrip usr ≠ "") := by tauto
  unfold submit
  rw [if_neg hng]

theorem C5_submit_guard_noop_witness :
    ("None" = "None" ∨ pyStrip "Alice" = "") ∧
    submit sampleDB sampleItem "None" "Alice" "ts" 3 = sampleDB :=
  ⟨Or.inl rfl, C5_submit_guard_noop sampleDB sampleItem "None" "Alice" "ts" 3 (Or.inl rfl)⟩

/-- C4: deleting an existing item (non-blank user) appends exactly one
ledger row with action="Deleted" and qty = the item's quantity at deletion
time, and removes the row, so no row with the old id remains. -/
theorem C4_delete_ledger_and_removal (db : DB) (id : Nat) (usr ts : String) (it : Item)
    (husr : pyStrip usr ≠ "")
    (hfind : db.inventory.find? (fun x => x.rowid == id) = some it) :
    ∃ db2, deleteItem db id usr ts = Except.ok db2 ∧
      db2.transactions = db.transactions ++ [⟨it.item, "Deleted", pyStrip usr, ts, it.quantity⟩] ∧
      ∀ x ∈ db2.inventory, x.rowid ≠ id := by
  unfold deleteItem
  rw [if_neg husr, hfind]
  refine ⟨_, rfl, rfl, fun x hx => ?_⟩
  have hmem := (List.mem_filter.1 hx).2
  simpa using hmem

theorem C4_delete_ledger_and_removal_witness :
    pyStrip "Bob" ≠ "" ∧
    sampleDB.inventory.find? (fun x => x.rowid == 1) = some sampleItem ∧
    ∃ db2, deleteItem sampleDB 1 "Bob" "ts" = Except.ok db2 ∧
      db2.transactions =
        sampleDB.transactions ++ [⟨sampleItem.item, "Deleted", pyStrip "Bob", "ts", sampleItem.quantity⟩] ∧
      ∀ x ∈ db2.inventory, x.rowid ≠ 1 :=
  ⟨by decide, by decide,
   C4_delete_ledger_and_removal sampleDB 1 "Bob" "ts" sampleItem (by decide) (by decide)⟩

/-- C8: the admin toggle sends a matched row's quantity to 1 exactly when it
is 0 and to 0 for every nonzero quantity, touches unmatched rows not at all,
and appends nothing to the transactions ledger. -/
theorem C8_toggle_zero_one_frame (db : DB) (cab drw : String) :
    (toggle01 db cab drw).transactions = db.transactions ∧
    (∀ r ∈ db.inventory, locationFilter cab drw r = true → r.quantity = 0 →
      ({ r with quantity := 1 } : Item) ∈ (toggle01 db cab drw).inventory) ∧
    (∀ r ∈ db.inventory, locationFilter cab drw r = true → r.quantity ≠ 0 →
      ({ r with quantity := 0 } : Item) ∈ (toggle01 db cab drw).inventory) ∧
    (∀ r ∈ db.inventory, locationFilter cab drw r = false →
      r ∈ (toggle01 db cab drw).inventory) := by
  refine ⟨rfl, fun r hr hf hq => ?_, fun r hr hf hq => ?_, fun r hr hf => ?_⟩
  · exact List.mem_map.2 ⟨r, hr, by simp [hf, hq]⟩
  · exact List.mem_map.2 ⟨r, hr, by simp [hf, hq]⟩
  · exact List.mem_map.2 ⟨r, hr, by simp [hf]⟩

theorem C8_toggle_zero_one_frame_witness :
    (toggle01 toggleDB "All" "All").transactions = toggleDB.transactions ∧
    ({ (⟨1, "5A", "endmill", "", 0⟩ : Item) with quantity := 1 } ∈
      (toggle01 toggleDB "All" "All").inventory) ∧
    ({ (⟨2, "5B", "collet", "", 5⟩ : Item) with quantity := 0 } ∈
      (toggle01 toggleDB "All" "All").inventory) :=
  ⟨(C8_toggle_zero_one_frame toggleDB "All" "All").1,
   (C8_toggle_zero_one_frame toggleDB "All" "All").2.1 _ (by decide) (by decide) (by decide),
   (C8_toggle_zero_one_frame toggleDB "All" "All").2.2.1 _ (by decide) (by decide) (by decide)⟩

/-- C9: the add-item form with an empty item name, or a location that is
empty (after the `.strip().upper()` of line 201), changes nothing and
reports no error — the location validation never runs in that case. -/
theorem C9_addform_guard_noop (db : DB) (rid : Nat) (item loc : String)
    (qty : Int) (notes : String)
    (h : item = "" ∨ pyStrip loc = "") :
    addForm db rid item loc qty notes = (db, none) := by
  have hup : pyStrip loc = "" → pyUpper (pyStrip loc) = "" := by
    intro he
    rw [he]
    rfl
  have hng : ¬ (item ≠ "" ∧ pyUpper (pyStrip loc) ≠ "") := by
    rcases h with h | h
    · exact fun hc => hc.1 h
    · exact fun hc => hc.2 (hup h)
  unfold addForm
  rw [if_neg hng]

theorem C9_addform_guard_noop_witness :
    (("" : String) = "" ∨ pyStrip "###" = "") ∧
    addForm sampleDB 2 "" "###" 1 "" = (sampleDB, none) :=
  ⟨Or.inl rfl, C9_addform_guard_noop sampleDB 2 "" "###" 1 "" (Or.inl rfl)⟩

/-- C6 counterexample: a ledger of 150 rows (well under 1000) comes back
with only 100 rows — the query's cap in the source is `LIMIT 100`, not
1000, so the result length differs from what a 1000-row cap would give. -/
theorem C6_cap_counterexample :
    (queryTransactions manyTxs).length ≠ min manyTxs.length 1000 := by
  simp [queryTransactions, manyTxs, List.length_insertionSort]

/-- C6 (amended): the transactions query returns the ledger ordered
newest-first (non-increasing timestamps) and capped at **100** rows
(`LIMIT 100` at app.py line 366). -/
theorem C6_query_newest_first_cap100 (txs : List Txn) :
    List.Sorted newerFirst (queryTransactions txs) ∧
    (queryTransactions txs).length = min 100 txs.length := by
  constructor
  · exact ((List.sorted_insertionSort newerFirst txs).sublist (List.take_sublist _ _))
  · rw [queryTransactions, List.length_take, List.length_insertionSort]

/-- C7 counterexample: with cabinet "12" and drawer "B" both selected, the
row at location "127B" satisfies the independent cabinet-prefix and
drawer-suffix filters, yet the search excludes it: the code uses
`location = '12' || 'B'` (exact equality) when both are given. -/
theorem C7_both_filters_counterexample :
    ("12" : String).data.isPrefixOf oddLocItem.location.data = true ∧
    ("B" : String).data.isSuffixOf oddLocItem.location.data = true ∧
    searchInventory [oddLocItem] "" "12" "B" 0 = [] := by
  refine ⟨by decide, by decide, by decide⟩

/-- C7 (amended): the inventory search returns exactly the rows satisfying
the WHERE clause — case-insensitive name substring, quantity equality when
qty > 0, and the location filter in which cabinet-only means
case-insensitive prefix, drawer-only means case-insensitive suffix, but
both given means exact equality `location = cabinet ++ drawer` — ordered by
(location, item name). -/
theorem C7_search_exact_rows_sorted (rows : List Item) (name cab drw : String) (qty : Int) :
    List.Sorted invOrder (searchInventory rows name cab drw qty) ∧
    List.Perm (searchInventory rows name cab drw qty)
      (rows.filter (searchMatches name cab drw qty)) ∧
    ∀ r, r ∈ searchInventory rows name cab drw qty ↔
      r ∈ rows ∧ searchMatches name cab drw qty r = true := by
  refine ⟨List.sorted_insertionSort _ _, List.perm_insertionSort _ _, fun r => ?_⟩
  rw [searchInventory, List.mem_insertionSort, List.mem_filter]

/-- C10: on every canonical location (1–3 digits then one uppercase
letter), `extract_cabinet` returns the digit block, `extract_drawer` the
trailing letter, and pushing the drawer back onto the cabinet recovers the
original location string. -/
theorem C10_cabinet_drawer_roundtrip (s : String) (h : matchesLocPattern s = true) :
    ∃ cab dr, extract_cabinet s = some cab ∧ extract_drawer s = some dr ∧
      cab.push dr = s := by
  obtain ⟨ds, c, heq, h1, h3, hd, hc⟩ := (matchesLocPattern_iff s).1 h
  cases ds with
  | nil => simp at h1
  | cons d ds1 =>
    have hdig : d.isDigit = true := hd d (List.mem_cons_self d ds1)
    have hall1 : ∀ x ∈ ds1, x.isDigit = true :=
      fun x hx => hd x (List.mem_cons_of_mem d hx)
    have hcd : c.isDigit = false := isUpper_isDigit_false hc
    have heq2 : s.data = d :: (ds1 ++ [c]) := by simpa using heq
    refine ⟨String.mk (d :: ds1), c, ?_, ?_, ?_⟩
    · unfold extract_cabinet
      rw [heq2]
      have hdrop : ((d :: (ds1 ++ [c])).dropWhile fun x => !x.isDigit) = d :: (ds1 ++ [c]) := by
        simp [List.dropWhile_cons, hdig]
      have htake : ((d :: (ds1 ++ [c])).takeWhile Char.isDigit) = d :: ds1 := by
        have := takeWhile_append_all Char.isDigit (d :: ds1) c hd hcd
        simpa using this
      simp only [hdrop, List.isEmpty_cons, htake]
      rw [if_neg (by simp), List.take_of_length_le]
      simpa using h3
    · unfold extract_drawer
      rw [heq2]
      exact (drawerScan_through_digits ds1 d c hdig hall1 (isUpper_isAlpha hc)).trans
        (by rw [isUpper_toUpper_eq hc])
    · cases s with
      | mk data =>
        simp only [String.data] at heq
        simp [String.push, heq]

theorem C10_cabinet_drawer_roundtrip_witness :
    matchesLocPattern "105C" = true ∧
    ∃ cab dr, extract_cabinet "105C" = some cab ∧ extract_drawer "105C" = some dr ∧
      cab.push dr = "105C" :=
  ⟨by decide, C10_cabinet_drawer_roundtrip "105C" (by decide)⟩

